import Mathlib

/-!
Verification development for the seta note/folder sharing service.

This file gives a shallow embedding of the event-driven cache layer and the
authorization resolver of the repository:

* the Redis cache store is modelled as association lists (string keys to
  string values, string sets, and field-to-value hashes), with the Redis
  operations `GET`/`SET`/`DEL`, `SADD`/`SREM`/`SMEMBERS`, `HGET`/`HSET`/
  `HGETALL` translated to pure functions on those lists;
* the relational system of record is modelled as a structure of query
  functions whose results carry the gorm error cases (`ErrRecordNotFound`
  versus other database errors) explicitly;
* the authorization service (`IsAssetOwner`, `CanAccessAsset`,
  `CanWriteAsset`, `getAccessFromCacheOrDB`, `fetchAndBuildACL`), the typed
  cache adapters (`GetTeamMembers`, `SetTeamMembers`, `GetACL`, `SetACL`,
  `InvalidateACL`) and the Kafka event dispatch handlers (`handleTeamEvent`,
  `handleAssetEvent`) are translated function by function from the Go source.

Calls are instrumented with counters (cache reads, cache writes, ownership
queries, share-table queries) so that statements about "which backend is
consulted" become statements about those counters.  TTL expiry (`EXPIRE`) is
not modelled: no verified property depends on the passage of time.
-/

set_option autoImplicit false

namespace Seta

instance {ε α : Type} [DecidableEq ε] [DecidableEq α] : DecidableEq (Except ε α) := fun x y =>
  match x, y with
  | .ok a, .ok b =>
    if h : a = b then .isTrue (by rw [h]) else .isFalse (fun c => h (Except.ok.inj c))
  | .error a, .error b =>
    if h : a = b then .isTrue (by rw [h]) else .isFalse (fun c => h (Except.error.inj c))
  | .ok _, .error _ => .isFalse (fun c => Except.noConfusion c)
  | .error _, .ok _ => .isFalse (fun c => Except.noConfusion c)

/-! ## Association-list primitives

The Redis key space is modelled as an association list.  `alookup` returns
the first binding of a key, `setAssoc` replaces the first binding (or appends
a new one), `delAll` removes every binding of a key (Redis `DEL`).
-/

/-- Lookup of the first binding of a key in an association list. -/
def alookup {α : Type} (k : String) : List (String × α) → Option α
  | [] => none
  | (k1, v) :: rest => if k = k1 then some v else alookup k rest

/-- Replacement of the first binding of a key, appending when absent. -/
def setAssoc {α : Type} : List (String × α) → String → α → List (String × α)
  | [], k, v => [(k, v)]
  | (k1, v1) :: rest, k, v =>
    if k1 = k then (k, v) :: rest else (k1, v1) :: setAssoc rest k v

/-- Removal of every binding of a key (the effect of Redis `DEL`). -/
def delAll {α : Type} (l : List (String × α)) (k : String) : List (String × α) :=
  l.filter (fun p => p.1 != k)

theorem alookup_setAssoc {α : Type} (l : List (String × α)) (k k1 : String) (v : α) :
    alookup k1 (setAssoc l k v) = if k1 = k then some v else alookup k1 l := by
  induction l with
  | nil =>
    by_cases h : k1 = k <;> simp [setAssoc, alookup, h]
  | cons p rest ih =>
    obtain ⟨k2, v2⟩ := p
    by_cases h2 : k2 = k
    · subst h2
      by_cases h1 : k1 = k2 <;> simp [setAssoc, alookup, h1]
    · simp only [setAssoc, if_neg h2]
      by_cases h1 : k1 = k2
      · have hk : ¬ k1 = k := fun hh => h2 (h1 ▸ hh)
        simp [alookup, h1, hk, h2]
      · simp [alookup, h1, ih]

theorem setAssoc_setAssoc_same {α : Type} (l : List (String × α)) (k : String) (v : α) :
    setAssoc (setAssoc l k v) k v = setAssoc l k v := by
  induction l with
  | nil => simp [setAssoc]
  | cons p rest ih =>
    obtain ⟨k1, v1⟩ := p
    by_cases h : k1 = k
    · simp [setAssoc, h]
    · simp [setAssoc, h, ih]

theorem setAssoc_eq_self {α : Type} (l : List (String × α)) (k : String) (v : α)
    (h : alookup k l = some v) : setAssoc l k v = l := by
  induction l with
  | nil => simp [alookup] at h
  | cons p rest ih =>
    obtain ⟨k1, v1⟩ := p
    by_cases hk : k = k1
    · subst hk
      simp [alookup] at h
      simp [setAssoc, h]
    · simp [alookup, hk] at h
      have hk1 : ¬ k1 = k := fun hh => hk hh.symm
      simp only [setAssoc, if_neg hk1, ih h]

theorem alookup_delAll_self {α : Type} (l : List (String × α)) (k : String) :
    alookup k (delAll l k) = none := by
  induction l with
  | nil => simp [delAll, alookup]
  | cons p rest ih =>
    obtain ⟨k1, v1⟩ := p
    by_cases h : k1 = k
    · simpa [delAll, List.filter, h] using ih
    · have hne : (k1 != k) = true := by simp [bne, h]
      have hk : ¬ k = k1 := fun hh => h hh.symm
      simp only [delAll, List.filter, hne] at ih ⊢
      simp [alookup, hk, ih]

theorem alookup_delAll_ne {α : Type} (l : List (String × α)) (k k1 : String) (hne : k1 ≠ k) :
    alookup k1 (delAll l k) = alookup k1 l := by
  induction l with
  | nil => simp [delAll, alookup]
  | cons p rest ih =>
    obtain ⟨k2, v2⟩ := p
    by_cases h : k2 = k
    · subst h
      have hb : (k2 != k2) = false := by simp [bne]
      simp only [delAll, List.filter, hb] at ih ⊢
      simp [alookup, fun hh : k1 = k2 => hne hh, ih]
    · have hb : (k2 != k) = true := by simp [bne, h]
      simp only [delAll, List.filter, hb] at ih ⊢
      by_cases h1 : k1 = k2 <;> simp [alookup, h1, ih]

theorem delAll_delAll {α : Type} (l : List (String × α)) (k : String) :
    delAll (delAll l k) k = delAll l k := by
  simp only [delAll, List.filter_filter]
  congr 1
  funext a
  exact Bool.and_self _

theorem delAll_eq_self {α : Type} (l : List (String × α)) (k : String)
    (h : alookup k l = none) : delAll l k = l := by
  induction l with
  | nil => simp [delAll]
  | cons p rest ih =>
    obtain ⟨k1, v1⟩ := p
    by_cases hk : k = k1
    · subst hk
      simp [alookup] at h
    · simp [alookup, hk] at h
      have hk1 : ¬ k1 = k := fun hh => hk hh.symm
      have hb : (k1 != k) = true := by simp [bne, hk1]
      simp only [delAll, List.filter, hb]
      exact congrArg (List.cons (k1, v1)) (ih h)

/-! ### Folding an association list into a store

The Go code builds ACL maps entry by entry (`acl[k] = v`) and writes them
into a Redis hash with `HSET` (field-by-field update).  Both are folds of
`setAssoc`.  The lemmas below describe lookups in such folds.
-/

/-- Fold of key/value pairs into an association list by `setAssoc`. -/
def setAssocAll {α : Type} (init : List (String × α)) (entries : List (String × α)) :
    List (String × α) :=
  entries.foldl (fun acc p => setAssoc acc p.1 p.2) init

theorem alookup_setAssocAll_of_not_mem {α : Type} (entries : List (String × α))
    (init : List (String × α)) (u : String) (h : u ∉ entries.map Prod.fst) :
    alookup u (setAssocAll init entries) = alookup u init := by
  induction entries generalizing init with
  | nil => rfl
  | cons p rest ih =>
    obtain ⟨k, v⟩ := p
    simp only [List.map, List.mem_cons] at h
    push_neg at h
    simp only [setAssocAll, List.foldl]
    rw [show (rest.foldl (fun acc p => setAssoc acc p.1 p.2) (setAssoc init k v)) =
      setAssocAll (setAssoc init k v) rest from rfl, ih _ h.2, alookup_setAssoc,
      if_neg h.1]

/-- Keys of `setAssoc l k v` are among the keys of `l` together with `k`. -/
theorem mem_keys_setAssoc {α : Type} (l : List (String × α)) (k v : _) (x : String)
    (h : x ∈ (setAssoc l k v).map Prod.fst) : x ∈ l.map Prod.fst ∨ x = k := by
  induction l with
  | nil => simpa [setAssoc] using h
  | cons p rest ih =>
    obtain ⟨k1, v1⟩ := p
    by_cases hk : k1 = k
    · simp only [setAssoc, if_pos hk, List.map, List.mem_cons] at h ⊢
      rcases h with h | h
      · exact Or.inr h
      · exact Or.inl (Or.inr h)
    · simp only [setAssoc, if_neg hk, List.map, List.mem_cons] at h ⊢
      rcases h with h | h
      · exact Or.inl (Or.inl h)
      · rcases ih h with h | h
        · exact Or.inl (Or.inr h)
        · exact Or.inr h

/-- Distinctness of keys is preserved by `setAssoc`. -/
theorem keysNodup_setAssoc {α : Type} (l : List (String × α)) (k : String) (v : α)
    (h : (l.map Prod.fst).Nodup) : ((setAssoc l k v).map Prod.fst).Nodup := by
  induction l with
  | nil => simp [setAssoc]
  | cons p rest ih =>
    obtain ⟨k1, v1⟩ := p
    simp only [List.map, List.nodup_cons] at h
    by_cases hk : k1 = k
    · subst hk
      simp only [setAssoc, if_pos rfl, List.map, List.nodup_cons]
      exact ⟨h.1, h.2⟩
    · simp only [setAssoc, if_neg hk, List.map, List.nodup_cons]
      refine ⟨fun hmem => ?_, ih h.2⟩
      rcases mem_keys_setAssoc rest k v k1 hmem with hh | hh
      · exact h.1 hh
      · exact hk hh

/-- Maps built by folding `setAssoc` from the empty list have distinct keys. -/
theorem keysNodup_setAssocAll {α : Type} (entries : List (String × α))
    (init : List (String × α)) (h : (init.map Prod.fst).Nodup) :
    ((setAssocAll init entries).map Prod.fst).Nodup := by
  induction entries generalizing init with
  | nil => exact h
  | cons p rest ih =>
    exact ih (setAssoc init p.1 p.2) (keysNodup_setAssoc init p.1 p.2 h)

theorem alookup_setAssocAll_of_mem {α : Type} (entries : List (String × α))
    (init : List (String × α)) (u : String) (v : α)
    (hnd : (entries.map Prod.fst).Nodup) (h : alookup u entries = some v) :
    alookup u (setAssocAll init entries) = some v := by
  induction entries generalizing init with
  | nil => simp [alookup] at h
  | cons p rest ih =>
    obtain ⟨k, w⟩ := p
    simp only [List.map, List.nodup_cons] at hnd
    by_cases hu : u = k
    · subst hu
      simp only [alookup, if_pos rfl] at h
      cases h
      simp only [setAssocAll, List.foldl]
      rw [show (rest.foldl (fun acc p => setAssoc acc p.1 p.2) (setAssoc init u v)) =
        setAssocAll (setAssoc init u v) rest from rfl,
        alookup_setAssocAll_of_not_mem rest _ u hnd.1, alookup_setAssoc, if_pos rfl]
    · simp only [alookup, if_neg hu] at h
      exact ih (setAssoc init k w) hnd.2 h

theorem alookup_some_ne_nil {α : Type} (l : List (String × α)) (u : String) (v : α)
    (h : alookup u l = some v) : l ≠ [] := by
  intro hnil
  subst hnil
  simp [alookup] at h

/-! ## Redis store model

Identifiers (`uuid.UUID` values) are represented by their string form, which
is how they appear both in Redis keys/fields and in the serialized cache
entries; `uuid.String()` is injective, so this loses nothing.  A Redis
instance is three disjoint namespaces actually used by the repository:
plain string keys (asset snapshots), set keys (team members) and hash keys
(per-asset ACLs).
-/

/-- Hash value stored under one Redis hash key: field to value. -/
abbrev Hash := List (String × String)

/-- Hash keyspace of the Redis instance. -/
abbrev HashStore := List (String × Hash)

/-- Set keyspace of the Redis instance. -/
abbrev SetStore := List (String × List String)

/-- String keyspace of the Redis instance. -/
abbrev KVStore := List (String × String)

/-- Whole Redis state, split by value type as used by the repository. -/
structure RedisState where
  strings : KVStore
  sets : SetStore
  hashes : HashStore
deriving DecidableEq

/-- Redis `HGET key field`: `none` both when the key is absent and when the
key exists but lacks the field (go-redis reports both as `redis.Nil`). -/
def hget (st : HashStore) (key field : String) : Option String :=
  (alookup key st).bind (fun h => alookup field h)

/-- Redis `HSET key map`: sets each given field on the (possibly existing)
hash, leaving fields not mentioned in the map untouched.  The Go map being
iterated has distinct keys, so its iteration order is irrelevant here. -/
def hsetAll (st : HashStore) (key : String) (fields : List (String × String)) : HashStore :=
  setAssoc st key (setAssocAll ((alookup key st).getD []) fields)

/-- Redis `SMEMBERS key`: the empty list when the key is absent. -/
def smembers (st : SetStore) (key : String) : List String :=
  (alookup key st).getD []

/-- Redis `SADD key member` for a single member. -/
def sadd (st : SetStore) (key member : String) : SetStore :=
  match alookup key st with
  | none => (key, [member]) :: st
  | some s => setAssoc st key (if member ∈ s then s else s ++ [member])

/-- Redis `SADD key members...`: adds each member in turn. -/
def saddAll (st : SetStore) (key : String) (members : List String) : SetStore :=
  members.foldl (fun acc m => sadd acc key m) st

/-- Redis `SREM key member`: removes the member; a set key that becomes
empty is removed from the keyspace (Redis deletes empty sets). -/
def srem (st : SetStore) (key member : String) : SetStore :=
  match alookup key st with
  | none => st
  | some s =>
    let s1 := s.filter (fun x => x != member)
    if s1 = [] then delAll st key else setAssoc st key s1

theorem mem_smembers_sadd_self (st : SetStore) (key m : String) :
    m ∈ smembers (sadd st key m) key := by
  unfold sadd
  cases h : alookup key st with
  | none => simp [smembers, alookup]
  | some s =>
    have hl : alookup key (setAssoc st key (if m ∈ s then s else s ++ [m]))
        = some (if m ∈ s then s else s ++ [m]) := by
      rw [alookup_setAssoc, if_pos rfl]
    simp only [smembers, hl, Option.getD_some]
    by_cases hm : m ∈ s
    · rw [if_pos hm]
      exact hm
    · rw [if_neg hm]
      exact List.mem_append_right _ (List.mem_singleton.mpr rfl)

theorem mem_smembers_sadd_of_mem (st : SetStore) (key x m : String)
    (h : x ∈ smembers st key) : x ∈ smembers (sadd st key m) key := by
  unfold sadd
  cases hl : alookup key st with
  | none => simp [smembers, hl] at h
  | some s =>
    simp only [smembers, hl, Option.getD_some] at h
    have hl1 : alookup key (setAssoc st key (if m ∈ s then s else s ++ [m]))
        = some (if m ∈ s then s else s ++ [m]) := by
      rw [alookup_setAssoc, if_pos rfl]
    simp only [smembers, hl1, Option.getD_some]
    by_cases hm : m ∈ s
    · rw [if_pos hm]
      exact h
    · rw [if_neg hm]
      exact List.mem_append_left _ h

theorem mem_smembers_saddAll_of_mem (members : List String) (st : SetStore) (key x : String)
    (h : x ∈ smembers st key) : x ∈ smembers (saddAll st key members) key := by
  induction members generalizing st with
  | nil => exact h
  | cons m rest ih =>
    exact ih (sadd st key m) (mem_smembers_sadd_of_mem st key x m h)

theorem mem_smembers_saddAll_self (members : List String) (st : SetStore) (key x : String)
    (h : x ∈ members) : x ∈ smembers (saddAll st key members) key := by
  induction members generalizing st with
  | nil => simp at h
  | cons m rest ih =>
    rcases List.mem_cons.mp h with h | h
    · subst h
      exact mem_smembers_saddAll_of_mem rest (sadd st key x) key x
        (mem_smembers_sadd_self st key x)
    · exact ih (sadd st key m) h

/-! ## UUID parsing model

Model of `uuid.Parse` from github.com/google/uuid, restricted to validity:
the library accepts the canonical 36-character dashed form, the same form
preceded by `urn:uuid:` or wrapped in braces, and the plain 32-character hex
form.  The repository writes cache entries via `uuid.String()` (canonical
form), so the canonical case is the one exercised by well-formed data.
-/

/-- Hexadecimal digit test, as accepted by the uuid library's `xtob`. -/
def isHexDigit (c : Char) : Bool :=
  (('0' ≤ c) && (c ≤ '9')) || (('a' ≤ c) && (c ≤ 'f')) || (('A' ≤ c) && (c ≤ 'F'))

/-- Validity of the canonical 36-character dashed UUID form. -/
def validUUID36 (cs : List Char) : Bool :=
  cs.length == 36 &&
    cs.enum.all (fun p =>
      if p.1 == 8 || p.1 == 13 || p.1 == 18 || p.1 == 23 then p.2 == '-'
      else isHexDigit p.2)

/-- Validity of the plain 32-character hex UUID form. -/
def validUUID32 (cs : List Char) : Bool :=
  cs.length == 32 && cs.all isHexDigit

/-- Whether `uuid.Parse` accepts the string. -/
def uuidParseOk (s : String) : Bool :=
  let cs := s.toList
  if cs.length == 36 then validUUID36 cs
  else if cs.length == 45 then
    ((cs.take 9).map Char.toLower == "urn:uuid:".toList) && validUUID36 (cs.drop 9)
  else if cs.length == 38 then validUUID36 ((cs.drop 1).take 36)
  else if cs.length == 32 then validUUID32 cs
  else false

/-! ## System-of-record model

The authorization service issues two kinds of gorm queries:

* ownership (`Select("owner_id").Where(...).Take(&row)`), which can yield a
  row, `gorm.ErrRecordNotFound`, or another database error;
* share listing (`Where(...).Find(&shares)`), which yields a (possibly
  empty) list of `(user_id, access)` rows or a database error — `Find` never
  reports `ErrRecordNotFound` for an empty result.
-/

/-- Outcome of the gorm ownership query. -/
inductive OwnerRes where
  | ok (ownerID : String)
  | notFound
  | dbError
deriving DecidableEq

/-- System of record, as seen through the queries the resolver issues.
Share rows are `(user_id, access)` pairs for the queried asset. -/
structure DB where
  folderOwner : String → OwnerRes
  noteOwner : String → OwnerRes
  folderShares : String → Except Unit (List (String × String))
  noteShares : String → Except Unit (List (String × String))

/-- Error shape of `errorHandling.CustomError` (HTTP status code, message). -/
structure CustomError where
  code : Nat
  message : String
deriving DecidableEq

/-! ## Authorization service

Translation of `seta-service/internal/app/server/services/authorizationService.go`.
-/

/-- IsAssetOwner checks whether userID is the owner of the given asset. -/
def IsAssetOwner (db : DB) (userID assetType assetID : String) :
    Except CustomError Bool :=
  if assetType = "folder" then
    match db.folderOwner assetID with
    | .ok owner => .ok (userID == owner)
    | .notFound => .error ⟨404, "folder not found"⟩
    | .dbError => .error ⟨500, "Database error while checking ownership"⟩
  else if assetType = "note" then
    match db.noteOwner assetID with
    | .ok owner => .ok (userID == owner)
    | .notFound => .error ⟨404, "note not found"⟩
    | .dbError => .error ⟨500, "Database error while checking ownership"⟩
  else
    .error ⟨500, "invalid asset type: " ++ assetType⟩

/-- ACL map built from share rows exactly as the Go loop does: a later row
for the same user overwrites an earlier one (`acl[k] = v` on a Go map). -/
def buildACL (shares : List (String × String)) : List (String × String) :=
  setAssocAll [] shares

/-- fetchAndBuildACL rebuilds the full ACL of an asset from the system of
record; an unknown asset type yields an empty ACL without error. -/
def fetchAndBuildACL (db : DB) (assetType assetID : String) :
    Except CustomError (List (String × String)) :=
  if assetType = "folder" then
    match db.folderShares assetID with
    | .ok shares => .ok (buildACL shares)
    | .error _ => .error ⟨500, "Database error checking folder shares"⟩
  else if assetType = "note" then
    match db.noteShares assetID with
    | .ok shares => .ok (buildACL shares)
    | .error _ => .error ⟨500, "Database error checking note shares"⟩
  else
    .ok []

/-- Result of a resolver call, instrumented with effect counters: the ACL
cache state after the call, the number of cache reads (`HGET`) and cache
writes (`HSET`) issued, and the number of ownership and share-table queries
issued against the system of record. -/
structure AuthOut (α : Type) where
  result : Except CustomError α
  cache : HashStore
  cacheReads : Nat
  cacheWrites : Nat
  dbOwnerQueries : Nat
  dbShareQueries : Nat
deriving DecidableEq

/-- Number of ownership queries a single `IsAssetOwner` call issues: one for
a known asset type, none for the invalid-type early return. -/
def ownerQueryCount (assetType : String) : Nat :=
  if assetType = "folder" ∨ assetType = "note" then 1 else 0

/-- getAccessFromCacheOrDB returns "", "read", or "write": first `HGET` of
the user's field in the per-asset ACL hash, and on any miss a full rebuild
from the system of record, cached via `HSET` unless the rebuilt ACL is
empty. -/
def getAccessFromCacheOrDB (db : DB) (cache : HashStore)
    (userID assetType assetID : String) : AuthOut String :=
  let aclCacheKey := "asset:" ++ assetID ++ ":acl"
  match hget cache aclCacheKey userID with
  | some userAccess =>
    { result := .ok userAccess, cache := cache, cacheReads := 1, cacheWrites := 0,
      dbOwnerQueries := 0, dbShareQueries := 0 }
  | none =>
    match fetchAndBuildACL db assetType assetID with
    | .error e =>
      { result := .error e, cache := cache, cacheReads := 1, cacheWrites := 0,
        dbOwnerQueries := 0, dbShareQueries := 1 }
    | .ok acl =>
      let cache1 := if acl ≠ [] then hsetAll cache aclCacheKey acl else cache
      let writes := if acl ≠ [] then 1 else 0
      match alookup userID acl with
      | some access =>
        { result := .ok access, cache := cache1, cacheReads := 1, cacheWrites := writes,
          dbOwnerQueries := 0, dbShareQueries := 1 }
      | none =>
        { result := .ok "", cache := cache1, cacheReads := 1, cacheWrites := writes,
          dbOwnerQueries := 0, dbShareQueries := 1 }

/-- CanAccessAsset checks whether userID has read or write access to the
asset; the owner has implicit access. -/
def CanAccessAsset (db : DB) (cache : HashStore) (userID assetType assetID : String) :
    AuthOut Bool :=
  match IsAssetOwner db userID assetType assetID with
  | .error e =>
    { result := .error e, cache := cache, cacheReads := 0, cacheWrites := 0,
      dbOwnerQueries := ownerQueryCount assetType, dbShareQueries := 0 }
  | .ok true =>
    { result := .ok true, cache := cache, cacheReads := 0, cacheWrites := 0,
      dbOwnerQueries := ownerQueryCount assetType, dbShareQueries := 0 }
  | .ok false =>
    let a := getAccessFromCacheOrDB db cache userID assetType assetID
    match a.result with
    | .error e =>
      { result := .error e, cache := a.cache, cacheReads := a.cacheReads,
        cacheWrites := a.cacheWrites,
        dbOwnerQueries := ownerQueryCount assetType + a.dbOwnerQueries,
        dbShareQueries := a.dbShareQueries }
    | .ok access =>
      { result := .ok (access == "read" || access == "write"), cache := a.cache,
        cacheReads := a.cacheReads, cacheWrites := a.cacheWrites,
        dbOwnerQueries := ownerQueryCount assetType + a.dbOwnerQueries,
        dbShareQueries := a.dbShareQueries }

/-- CanWriteAsset checks whether userID can write the asset; the owner has
implicit write, otherwise a share with level `write` is required. -/
def CanWriteAsset (db : DB) (cache : HashStore) (userID assetType assetID : String) :
    AuthOut Bool :=
  match IsAssetOwner db userID assetType assetID with
  | .error e =>
    { result := .error e, cache := cache, cacheReads := 0, cacheWrites := 0,
      dbOwnerQueries := ownerQueryCount assetType, dbShareQueries := 0 }
  | .ok true =>
    { result := .ok true, cache := cache, cacheReads := 0, cacheWrites := 0,
      dbOwnerQueries := ownerQueryCount assetType, dbShareQueries := 0 }
  | .ok false =>
    let a := getAccessFromCacheOrDB db cache userID assetType assetID
    match a.result with
    | .error e =>
      { result := .error e, cache := a.cache, cacheReads := a.cacheReads,
        cacheWrites := a.cacheWrites,
        dbOwnerQueries := ownerQueryCount assetType + a.dbOwnerQueries,
        dbShareQueries := a.dbShareQueries }
    | .ok access =>
      { result := .ok (access == "write"), cache := a.cache,
        cacheReads := a.cacheReads, cacheWrites := a.cacheWrites,
        dbOwnerQueries := ownerQueryCount assetType + a.dbOwnerQueries,
        dbShareQueries := a.dbShareQueries }

/-! ## Typed cache adapters

Translation of the clean-architecture Redis adapters: the team-membership
cache (`RedisTeamCache`) and the ACL cache (`RedisACLCache`).  `EXPIRE`
calls are not modelled (no property here involves TTL lapse).
-/

/-- Error outcome of an adapter read: `miss` is the explicit `redis.Nil`
return; `corrupt` is the `uuid.Parse` error returned on malformed stored
identifiers.  The two are distinct values, as they are distinct error
values in Go. -/
inductive CacheReadErr where
  | miss
  | corrupt
deriving DecidableEq

/-- GetTeamMembers (`RedisTeamCache`): `SMEMBERS`, empty result reported as
an explicit miss, any member failing `uuid.Parse` reported as corruption. -/
def GetTeamMembers (st : SetStore) (teamID : String) :
    Except CacheReadErr (List String) :=
  let key := "team:" ++ teamID ++ ":members"
  let idStrings := smembers st key
  if idStrings = [] then .error .miss
  else if idStrings.all uuidParseOk then .ok idStrings
  else .error .corrupt

/-- SetTeamMembers (`RedisTeamCache`): refuses to cache an empty member
list; otherwise `SADD`s every member to the team's set key. -/
def SetTeamMembers (st : SetStore) (teamID : String) (memberIDs : List String) :
    SetStore :=
  if memberIDs = [] then st
  else saddAll st ("team:" ++ teamID ++ ":members") memberIDs

/-- InvalidateTeamMembers (`RedisTeamCache`): `DEL` of the team's set key. -/
def InvalidateTeamMembers (st : SetStore) (teamID : String) : SetStore :=
  delAll st ("team:" ++ teamID ++ ":members")

/-- GetACL (`RedisACLCache`): `HGETALL`, an empty hash reported as an
explicit miss, any user field failing `uuid.Parse` reported as corruption.
Go iterates the hash in arbitrary order and fails on the first bad field;
the outcome (some data corruption error) is order-independent. -/
def GetACL (st : HashStore) (assetID : String) :
    Except CacheReadErr (List (String × String)) :=
  let key := "asset:" ++ assetID ++ ":acl"
  let aclStrings := (alookup key st).getD []
  if aclStrings = [] then .error .miss
  else if aclStrings.all (fun p => uuidParseOk p.1) then .ok aclStrings
  else .error .corrupt

/-- SetACL (`RedisACLCache`): refuses to cache an empty ACL; otherwise
`HSET`s the user-to-access map onto the asset's ACL hash key. -/
def SetACL (st : HashStore) (assetID : String) (acl : List (String × String)) :
    HashStore :=
  if acl = [] then st
  else hsetAll st ("asset:" ++ assetID ++ ":acl") acl

/-- InvalidateACL (`RedisACLCache`): `DEL` of the asset's ACL hash key. -/
def InvalidateACL (st : HashStore) (assetID : String) : HashStore :=
  delAll st ("asset:" ++ assetID ++ ":acl")

/-! ## Event consumer dispatch

Translation of the cache-updater consumer's dispatch handlers (the
standalone consumer `handleTeamEvent` / `handleAssetEvent`; the
clean-architecture `EventConsumer` dispatches identically through the
adapters).  The handlers below take an already-decoded payload: on a JSON
decode failure the Go handlers log and return without touching the cache,
so every cache effect goes through these functions.
-/

/-- Decoded shape of a Kafka domain event (all identifier fields are their
JSON string forms; absent optional fields decode to the empty string). -/
structure EventPayload where
  eventType : String
  teamID : String
  assetType : String
  assetID : String
  ownerID : String
  actionBy : String
  targetUserID : String
  timestamp : String
deriving DecidableEq

/-- handleTeamEvent processes messages from the team-activity topic:
`MEMBER_ADDED`/`MEMBER_REMOVED` become `SADD`/`SREM` on the team's member
set; any other event type is ignored. -/
def handleTeamEvent (st : RedisState) (p : EventPayload) : RedisState :=
  let key := "team:" ++ p.teamID ++ ":members"
  if p.eventType = "MEMBER_ADDED" then
    { st with sets := sadd st.sets key p.targetUserID }
  else if p.eventType = "MEMBER_REMOVED" then
    { st with sets := srem st.sets key p.targetUserID }
  else st

/-- handleAssetEvent processes messages from the asset-changes topic: any
event with non-empty asset type and id `DEL`s the asset snapshot key, and
the four sharing-related event types additionally `DEL` the ACL hash key. -/
def handleAssetEvent (st : RedisState) (p : EventPayload) : RedisState :=
  let st1 :=
    if p.assetType ≠ "" ∧ p.assetID ≠ "" then
      { st with strings := delAll st.strings (p.assetType ++ ":" ++ p.assetID) }
    else st
  if p.eventType = "FOLDER_SHARED" ∨ p.eventType = "NOTE_SHARED" ∨
      p.eventType = "FOLDER_UNSHARED" ∨ p.eventType = "NOTE_UNSHARED" then
    { st1 with hashes := delAll st1.hashes ("asset:" ++ p.assetID ++ ":acl") }
  else st1

/-! ## Claims about the authorization resolver -/

/-- C1: when the ownership check reports that the user owns the asset, both
`CanAccessAsset` and `CanWriteAsset` return true immediately, leaving the
ACL cache untouched and issuing no cache read or write, whatever the cache
holds (including a poisoned entry denying the owner). -/
theorem canAccess_canWrite_owner_precedence
    (db : DB) (cache : HashStore) (u ty aid : String)
    (h : IsAssetOwner db u ty aid = .ok true) :
    (CanAccessAsset db cache u ty aid).result = .ok true ∧
    (CanAccessAsset db cache u ty aid).cache = cache ∧
    (CanAccessAsset db cache u ty aid).cacheReads = 0 ∧
    (CanAccessAsset db cache u ty aid).cacheWrites = 0 ∧
    (CanWriteAsset db cache u ty aid).result = .ok true ∧
    (CanWriteAsset db cache u ty aid).cache = cache ∧
    (CanWriteAsset db cache u ty aid).cacheReads = 0 ∧
    (CanWriteAsset db cache u ty aid).cacheWrites = 0 := by
  unfold CanAccessAsset CanWriteAsset
  rw [h]
  simp

/-- System of record for the C1 witness: `u1` owns folder `f1`. -/
def dbC1 : DB where
  folderOwner := fun aid => if aid = "f1" then .ok "u1" else .notFound
  noteOwner := fun _ => .notFound
  folderShares := fun _ => .ok []
  noteShares := fun _ => .ok []

/-- Poisoned ACL cache for the C1 witness: a cached entry denying `u1`. -/
def cacheC1 : HashStore := [("asset:f1:acl", [("u1", "none")])]

/-- C1 witness: the owner of `f1` passes both checks against a poisoned
cache entry denying them, and the cache is left untouched. -/
theorem canAccess_canWrite_owner_precedence_witness :
    IsAssetOwner dbC1 "u1" "folder" "f1" = .ok true ∧
    (CanAccessAsset dbC1 cacheC1 "u1" "folder" "f1").result = .ok true ∧
    (CanAccessAsset dbC1 cacheC1 "u1" "folder" "f1").cache = cacheC1 ∧
    (CanWriteAsset dbC1 cacheC1 "u1" "folder" "f1").result = .ok true :=
  ⟨by decide,
   (canAccess_canWrite_owner_precedence dbC1 cacheC1 "u1" "folder" "f1" (by decide)).1,
   (canAccess_canWrite_owner_precedence dbC1 cacheC1 "u1" "folder" "f1" (by decide)).2.1,
   (canAccess_canWrite_owner_precedence dbC1 cacheC1 "u1" "folder" "f1" (by decide)).2.2.2.2.1⟩

/-- C2: for a non-owner, with `L` the access level the cache-or-database
resolution yields, `CanAccessAsset` grants exactly when `L` is `read` or
`write` and `CanWriteAsset` grants exactly when `L` is `write`; any other
level (in particular the empty level returned when no share exists) is a
denial. -/
theorem nonowner_access_iff_resolved_level
    (db : DB) (cache : HashStore) (u ty aid L : String)
    (hown : IsAssetOwner db u ty aid = .ok false)
    (hres : (getAccessFromCacheOrDB db cache u ty aid).result = .ok L) :
    ((CanAccessAsset db cache u ty aid).result = .ok true ↔ (L = "read" ∨ L = "write")) ∧
    ((CanWriteAsset db cache u ty aid).result = .ok true ↔ L = "write") := by
  unfold CanAccessAsset CanWriteAsset
  rw [hown]
  simp only [hres]
  constructor
  · simp
  · simp

/-- System of record for the C2 witness: folder `f1` owned by `u1` and
shared with `u2` at level `write`. -/
def dbC2 : DB where
  folderOwner := fun aid => if aid = "f1" then .ok "u1" else .notFound
  noteOwner := fun _ => .notFound
  folderShares := fun aid => if aid = "f1" then .ok [("u2", "write")] else .ok []
  noteShares := fun _ => .ok []

/-- C2 witness: non-owner `u2` with resolved level `write` passes
`CanWriteAsset` on a cold cache. -/
theorem nonowner_access_iff_resolved_level_witness :
    IsAssetOwner dbC2 "u2" "folder" "f1" = .ok false ∧
    (getAccessFromCacheOrDB dbC2 [] "u2" "folder" "f1").result = .ok "write" ∧
    ((CanWriteAsset dbC2 [] "u2" "folder" "f1").result = .ok true ↔ "write" = "write") :=
  ⟨by decide, by decide,
   (nonowner_access_iff_resolved_level dbC2 [] "u2" "folder" "f1" "write"
     (by decide) (by decide)).2⟩

/-- C3: a system-of-record miss on the ownership lookup surfaces as a 404
not-found error from both entry points (distinct from an errorless denial),
and a database failure during the ownership lookup or during the ACL
rebuild surfaces as a 500 internal error, never as an errorless `false`. -/
theorem resolver_error_propagation (db : DB) (cache : HashStore) (u aid : String) :
    (db.folderOwner aid = .notFound →
      (CanAccessAsset db cache u "folder" aid).result = .error ⟨404, "folder not found"⟩ ∧
      (CanWriteAsset db cache u "folder" aid).result = .error ⟨404, "folder not found"⟩) ∧
    (db.noteOwner aid = .notFound →
      (CanAccessAsset db cache u "note" aid).result = .error ⟨404, "note not found"⟩ ∧
      (CanWriteAsset db cache u "note" aid).result = .error ⟨404, "note not found"⟩) ∧
    (db.folderOwner aid = .dbError →
      (CanAccessAsset db cache u "folder" aid).result =
        .error ⟨500, "Database error while checking ownership"⟩ ∧
      (CanWriteAsset db cache u "folder" aid).result =
        .error ⟨500, "Database error while checking ownership"⟩) ∧
    (db.noteOwner aid = .dbError →
      (CanAccessAsset db cache u "note" aid).result =
        .error ⟨500, "Database error while checking ownership"⟩ ∧
      (CanWriteAsset db cache u "note" aid).result =
        .error ⟨500, "Database error while checking ownership"⟩) ∧
    (∀ o, db.folderOwner aid = .ok o → (u == o) = false →
      hget cache ("asset:" ++ aid ++ ":acl") u = none →
      db.folderShares aid = .error () →
      (CanAccessAsset db cache u "folder" aid).result =
        .error ⟨500, "Database error checking folder shares"⟩ ∧
      (CanWriteAsset db cache u "folder" aid).result =
        .error ⟨500, "Database error checking folder shares"⟩) ∧
    (∀ o, db.noteOwner aid = .ok o → (u == o) = false →
      hget cache ("asset:" ++ aid ++ ":acl") u = none →
      db.noteShares aid = .error () →
      (CanAccessAsset db cache u "note" aid).result =
        .error ⟨500, "Database error checking note shares"⟩ ∧
      (CanWriteAsset db cache u "note" aid).result =
        .error ⟨500, "Database error checking note shares"⟩) := by
  refine ⟨fun h => ?_, fun h => ?_, fun h => ?_, fun h => ?_,
    fun o h1 h2 h3 h4 => ?_, fun o h1 h2 h3 h4 => ?_⟩ <;>
    simp [CanAccessAsset, CanWriteAsset, IsAssetOwner, getAccessFromCacheOrDB,
      fetchAndBuildACL, *]

/-- System of record for the C3 witness: `f404` unknown, `f500` failing the
ownership query, `f1` owned by `u1` with a failing share query. -/
def dbC3 : DB where
  folderOwner := fun aid =>
    if aid = "f1" then .ok "u1" else if aid = "f500" then .dbError else .notFound
  noteOwner := fun _ => .notFound
  folderShares := fun _ => .error ()
  noteShares := fun _ => .ok []

/-- C3 witness: the three failure modes at concrete inputs on a cold
cache. -/
theorem resolver_error_propagation_witness :
    dbC3.folderOwner "f404" = .notFound ∧
    (CanAccessAsset dbC3 [] "u2" "folder" "f404").result =
      .error ⟨404, "folder not found"⟩ ∧
    dbC3.folderOwner "f500" = .dbError ∧
    (CanWriteAsset dbC3 [] "u2" "folder" "f500").result =
      .error ⟨500, "Database error while checking ownership"⟩ ∧
    (CanAccessAsset dbC3 [] "u2" "folder" "f1").result =
      .error ⟨500, "Database error checking folder shares"⟩ :=
  ⟨by decide,
   ((resolver_error_propagation dbC3 [] "u2" "f404").1 (by decide)).1,
   by decide,
   ((resolver_error_propagation dbC3 [] "u2" "f500").2.2.1 (by decide)).2,
   ((resolver_error_propagation dbC3 [] "u2" "f1").2.2.2.2.1 "u1"
     (by decide) (by decide) (by decide) (by decide)).1⟩

/-- System of record for C4: folder `f1` owned by `u9`, no shares. -/
def dbC4 : DB where
  folderOwner := fun aid => if aid = "f1" then .ok "u9" else .notFound
  noteOwner := fun _ => .notFound
  folderShares := fun _ => .ok []
  noteShares := fun _ => .ok []

/-- ACL cache for C4: a present entry for `f1` in which `u1` is absent. -/
def cacheC4 : HashStore := [("asset:f1:acl", [("u2", "read")])]

/-- C4 counterexample: the ACL cache holds an entry for asset `f1` from
which user `u1` is absent; contrary to the claim, the resolver does not
answer from the cached entry alone — it issues a rebuild query against the
system of record, because the single-field `HGET` it uses cannot
distinguish an absent field from an absent key. -/
theorem acl_field_absence_triggers_rebuild_cex :
    alookup "asset:f1:acl" cacheC4 = some [("u2", "read")] ∧
    alookup "u1" [(("u2" : String), ("read" : String))] = none ∧
    (CanAccessAsset dbC4 cacheC4 "u1" "folder" "f1").dbShareQueries = 1 := by
  decide

/-- C4 amended: on an `HGET` hit (the user's field is present in the cached
hash) the cached level is returned with no system-of-record query and no
cache mutation; when the user's field is absent — whether or not the hash
key itself exists — the call falls into the rebuild path and issues exactly
one share query against the system of record. -/
theorem acl_user_hit_or_rebuild (db : DB) (cache : HashStore) (u ty aid : String) :
    (∀ v, hget cache ("asset:" ++ aid ++ ":acl") u = some v →
      getAccessFromCacheOrDB db cache u ty aid =
        { result := .ok v, cache := cache, cacheReads := 1, cacheWrites := 0,
          dbOwnerQueries := 0, dbShareQueries := 0 }) ∧
    (hget cache ("asset:" ++ aid ++ ":acl") u = none →
      (getAccessFromCacheOrDB db cache u ty aid).dbShareQueries = 1) := by
  constructor
  · intro v h
    simp [getAccessFromCacheOrDB, h]
  · intro h
    simp only [getAccessFromCacheOrDB, h]
    cases hf : fetchAndBuildACL db ty aid with
    | error e => simp
    | ok acl => cases ha : alookup u acl <;> simp [ha]

/-- C4 witness for the amended statement: a field hit answers from the
cache alone, and a present entry lacking the user triggers one rebuild. -/
theorem acl_user_hit_or_rebuild_witness :
    hget cacheC4 ("asset:" ++ "f1" ++ ":acl") "u2" = some "read" ∧
    getAccessFromCacheOrDB dbC4 cacheC4 "u2" "folder" "f1" =
      { result := .ok "read", cache := cacheC4, cacheReads := 1, cacheWrites := 0,
        dbOwnerQueries := 0, dbShareQueries := 0 } ∧
    hget cacheC4 ("asset:" ++ "f1" ++ ":acl") "u1" = none ∧
    (getAccessFromCacheOrDB dbC4 cacheC4 "u1" "folder" "f1").dbShareQueries = 1 :=
  ⟨by decide,
   (acl_user_hit_or_rebuild dbC4 cacheC4 "u2" "folder" "f1").1 "read" (by decide),
   by decide,
   (acl_user_hit_or_rebuild dbC4 cacheC4 "u1" "folder" "f1").2 (by decide)⟩

/-- System of record for C5: folder `f1` owned by `u1`, shared read-only
with `u2`. -/
def dbC5 : DB where
  folderOwner := fun aid => if aid = "f1" then .ok "u1" else .notFound
  noteOwner := fun _ => .notFound
  folderShares := fun aid => if aid = "f1" then .ok [("u2", "read")] else .ok []
  noteShares := fun _ => .ok []

/-- C5 counterexample: after the first cold-cache `canRead` populates the
ACL cache, the second identical call still issues a query to the system of
record — the authoritative ownership lookup, which runs on every call —
so the literal "issues no query to the system of record" fails. -/
theorem second_call_still_queries_ownership_cex :
    (CanAccessAsset dbC5 [] "u2" "folder" "f1").result = .ok true ∧
    (CanAccessAsset dbC5 (CanAccessAsset dbC5 [] "u2" "folder" "f1").cache
      "u2" "folder" "f1").dbOwnerQueries = 1 := by
  decide

/-- C5 amended: from a cold ACL cache entry, `canRead` for a non-owner the
folder is shared read-only with returns true, issues one ACL-rebuild query,
and stores the rebuilt map, so that the second identical call answers the
ACL resolution from the cache with zero share queries; the ownership check
still issues its (authoritative, by design uncached) query on every call. -/
theorem cold_cache_canRead_populates_then_hits
    (db : DB) (cache : HashStore) (u f : String) (shares : List (String × String))
    (hown : IsAssetOwner db u "folder" f = .ok false)
    (hcold : alookup ("asset:" ++ f ++ ":acl") cache = none)
    (hsh : db.folderShares f = .ok shares)
    (hread : alookup u (buildACL shares) = some "read") :
    (CanAccessAsset db cache u "folder" f).result = .ok true ∧
    (CanAccessAsset db cache u "folder" f).dbShareQueries = 1 ∧
    hget (CanAccessAsset db cache u "folder" f).cache ("asset:" ++ f ++ ":acl") u =
      some "read" ∧
    (CanAccessAsset db (CanAccessAsset db cache u "folder" f).cache
      u "folder" f).result = .ok true ∧
    (CanAccessAsset db (CanAccessAsset db cache u "folder" f).cache
      u "folder" f).dbShareQueries = 0 ∧
    (CanAccessAsset db (CanAccessAsset db cache u "folder" f).cache
      u "folder" f).dbOwnerQueries = 1 := by
  have hkey : hget cache ("asset:" ++ f ++ ":acl") u = none := by
    simp [hget, hcold]
  have hfetch : fetchAndBuildACL db "folder" f = .ok (buildACL shares) := by
    simp [fetchAndBuildACL, hsh]
  have hne : buildACL shares ≠ [] := alookup_some_ne_nil _ u "read" hread
  have hga : getAccessFromCacheOrDB db cache u "folder" f =
      { result := .ok "read",
        cache := hsetAll cache ("asset:" ++ f ++ ":acl") (buildACL shares),
        cacheReads := 1, cacheWrites := 1, dbOwnerQueries := 0, dbShareQueries := 1 } := by
    simp [getAccessFromCacheOrDB, hkey, hfetch, hne, hread]
  have hcan1 : CanAccessAsset db cache u "folder" f =
      { result := .ok true,
        cache := hsetAll cache ("asset:" ++ f ++ ":acl") (buildACL shares),
        cacheReads := 1, cacheWrites := 1, dbOwnerQueries := 1, dbShareQueries := 1 } := by
    simp [CanAccessAsset, hown, hga, ownerQueryCount]
  have hcache2 : hget (hsetAll cache ("asset:" ++ f ++ ":acl") (buildACL shares))
      ("asset:" ++ f ++ ":acl") u = some "read" := by
    unfold hget hsetAll
    rw [alookup_setAssoc, if_pos rfl, hcold]
    simp only [Option.getD_none, Option.bind_some]
    exact alookup_setAssocAll_of_mem (buildACL shares) [] u "read"
      (keysNodup_setAssocAll shares [] (by simp)) hread
  have hga2 : getAccessFromCacheOrDB db
      (hsetAll cache ("asset:" ++ f ++ ":acl") (buildACL shares)) u "folder" f =
      { result := .ok "read",
        cache := hsetAll cache ("asset:" ++ f ++ ":acl") (buildACL shares),
        cacheReads := 1, cacheWrites := 0, dbOwnerQueries := 0, dbShareQueries := 0 } := by
    simp [getAccessFromCacheOrDB, hcache2]
  have hcan2 : CanAccessAsset db
      (hsetAll cache ("asset:" ++ f ++ ":acl") (buildACL shares)) u "folder" f =
      { result := .ok true,
        cache := hsetAll cache ("asset:" ++ f ++ ":acl") (buildACL shares),
        cacheReads := 1, cacheWrites := 0, dbOwnerQueries := 1, dbShareQueries := 0 } := by
    simp [CanAccessAsset, hown, hga2, ownerQueryCount]
  refine ⟨?_, ?_, ?_, ?_, ?_, ?_⟩ <;> simp [hcan1, hcan2, hcache2]

/-- C5 witness: the amended statement at the concrete read-only share. -/
theorem cold_cache_canRead_populates_then_hits_witness :
    IsAssetOwner dbC5 "u2" "folder" "f1" = .ok false ∧
    alookup ("asset:" ++ "f1" ++ ":acl") ([] : HashStore) = none ∧
    dbC5.folderShares "f1" = .ok [("u2", "read")] ∧
    alookup "u2" (buildACL [("u2", "read")]) = some "read" ∧
    (CanAccessAsset dbC5 [] "u2" "folder" "f1").result = .ok true ∧
    (CanAccessAsset dbC5 (CanAccessAsset dbC5 [] "u2" "folder" "f1").cache
      "u2" "folder" "f1").dbShareQueries = 0 :=
  ⟨by decide, by decide, by decide, by decide,
   (cold_cache_canRead_populates_then_hits dbC5 [] "u2" "f1" [("u2", "read")]
     (by decide) (by decide) (by decide) (by decide)).1,
   (cold_cache_canRead_populates_then_hits dbC5 [] "u2" "f1" [("u2", "read")]
     (by decide) (by decide) (by decide) (by decide)).2.2.2.2.1⟩

/-! ## Claims about the event consumer and cache adapters -/

/-- Componentwise description of `handleAssetEvent`: the two deletions act
independently on the string and hash namespaces, and the set namespace is
never touched. -/
theorem handleAssetEvent_components (st : RedisState) (p : EventPayload) :
    handleAssetEvent st p =
      { strings :=
          if p.assetType ≠ "" ∧ p.assetID ≠ "" then
            delAll st.strings (p.assetType ++ ":" ++ p.assetID)
          else st.strings,
        sets := st.sets,
        hashes :=
          if p.eventType = "FOLDER_SHARED" ∨ p.eventType = "NOTE_SHARED" ∨
              p.eventType = "FOLDER_UNSHARED" ∨ p.eventType = "NOTE_UNSHARED" then
            delAll st.hashes ("asset:" ++ p.assetID ++ ":acl")
          else st.hashes } := by
  by_cases hm : p.assetType ≠ "" ∧ p.assetID ≠ "" <;>
    by_cases hs : p.eventType = "FOLDER_SHARED" ∨ p.eventType = "NOTE_SHARED" ∨
      p.eventType = "FOLDER_UNSHARED" ∨ p.eventType = "NOTE_UNSHARED" <;>
    simp [handleAssetEvent, hm, hs]

/-- C6: a decoded asset-changes event deletes the asset-snapshot key
exactly when both the asset type and the asset id are non-empty, deletes
the asset's ACL hash key exactly when the event type is one of the four
sharing events, and modifies nothing else: every other string key, every
other hash key, and the whole set namespace are untouched. -/
theorem handleAssetEvent_invalidation_effects (st : RedisState) (p : EventPayload) :
    (p.assetType ≠ "" → p.assetID ≠ "" →
      alookup (p.assetType ++ ":" ++ p.assetID) (handleAssetEvent st p).strings = none) ∧
    (p.assetType = "" ∨ p.assetID = "" →
      (handleAssetEvent st p).strings = st.strings) ∧
    (∀ k, k ≠ p.assetType ++ ":" ++ p.assetID →
      alookup k (handleAssetEvent st p).strings = alookup k st.strings) ∧
    (p.eventType = "FOLDER_SHARED" ∨ p.eventType = "NOTE_SHARED" ∨
        p.eventType = "FOLDER_UNSHARED" ∨ p.eventType = "NOTE_UNSHARED" →
      alookup ("asset:" ++ p.assetID ++ ":acl") (handleAssetEvent st p).hashes = none) ∧
    (¬(p.eventType = "FOLDER_SHARED" ∨ p.eventType = "NOTE_SHARED" ∨
        p.eventType = "FOLDER_UNSHARED" ∨ p.eventType = "NOTE_UNSHARED") →
      (handleAssetEvent st p).hashes = st.hashes) ∧
    (∀ k, k ≠ "asset:" ++ p.assetID ++ ":acl" →
      alookup k (handleAssetEvent st p).hashes = alookup k st.hashes) ∧
    (handleAssetEvent st p).sets = st.sets := by
  rw [handleAssetEvent_components]
  refine ⟨fun h1 h2 => ?_, fun h => ?_, fun k hk => ?_, fun h => ?_, fun h => ?_,
    fun k hk => ?_, rfl⟩
  · simp only [if_pos (And.intro h1 h2)]
    exact alookup_delAll_self st.strings _
  · rw [if_neg (fun hc => by rcases h with h | h <;> [exact hc.1 h; exact hc.2 h])]
  · by_cases hm : p.assetType ≠ "" ∧ p.assetID ≠ ""
    · rw [if_pos hm]
      exact alookup_delAll_ne st.strings _ k hk
    · rw [if_neg hm]
  · simp only [if_pos h]
    exact alookup_delAll_self st.hashes _
  · rw [if_neg h]
  · by_cases hs : p.eventType = "FOLDER_SHARED" ∨ p.eventType = "NOTE_SHARED" ∨
        p.eventType = "FOLDER_UNSHARED" ∨ p.eventType = "NOTE_UNSHARED"
    · rw [if_pos hs]
      exact alookup_delAll_ne st.hashes _ k hk
    · rw [if_neg hs]

/-- Redis state for the C6 witness: one snapshot key, one ACL hash key, one
unrelated key in each namespace, and a team-member set. -/
def stC6 : RedisState where
  strings := [("note:n1", "snapshot"), ("note:n2", "other")]
  sets := [("team:t1:members", ["u1"])]
  hashes := [("asset:n1:acl", [("u2", "read")]), ("asset:n2:acl", [("u2", "read")])]

/-- Payload for the C6 witness: a `NOTE_SHARED` event for note `n1`. -/
def pC6 : EventPayload where
  eventType := "NOTE_SHARED"
  teamID := ""
  assetType := "note"
  assetID := "n1"
  ownerID := "u1"
  actionBy := "u1"
  targetUserID := "u2"
  timestamp := "2024-01-01T00:00:00Z"

/-- C6 witness: the `NOTE_SHARED` event deletes the snapshot key and the
ACL key of `n1` and leaves the unrelated keys and the set namespace
alone. -/
theorem handleAssetEvent_invalidation_effects_witness :
    alookup ("note" ++ ":" ++ "n1") (handleAssetEvent stC6 pC6).strings = none ∧
    alookup ("asset:" ++ "n1" ++ ":acl") (handleAssetEvent stC6 pC6).hashes = none ∧
    alookup "note:n2" (handleAssetEvent stC6 pC6).strings = alookup "note:n2" stC6.strings ∧
    alookup "asset:n2:acl" (handleAssetEvent stC6 pC6).hashes =
      alookup "asset:n2:acl" stC6.hashes ∧
    (handleAssetEvent stC6 pC6).sets = stC6.sets :=
  ⟨(handleAssetEvent_invalidation_effects stC6 pC6).1 (by decide) (by decide),
   (handleAssetEvent_invalidation_effects stC6 pC6).2.2.2.1 (by decide),
   (handleAssetEvent_invalidation_effects stC6 pC6).2.2.1 "note:n2" (by decide),
   (handleAssetEvent_invalidation_effects stC6 pC6).2.2.2.2.2.1 "asset:n2:acl" (by decide),
   (handleAssetEvent_invalidation_effects stC6 pC6).2.2.2.2.2.2⟩

theorem srem_srem (st : SetStore) (k m : String) :
    srem (srem st k m) k m = srem st k m := by
  cases h : alookup k st with
  | none =>
    have h1 : srem st k m = st := by simp only [srem, h]
    rw [h1, h1]
  | some s =>
    by_cases he : s.filter (fun x => x != m) = []
    · have h1 : srem st k m = delAll st k := by simp only [srem, h, he, if_pos]
      have h3 : srem (delAll st k) k m = delAll st k := by
        simp only [srem, alookup_delAll_self st k]
      rw [h1, h3]
    · have h1 : srem st k m = setAssoc st k (s.filter (fun x => x != m)) := by
        simp only [srem, h, if_neg he]
      have h2 : alookup k (setAssoc st k (s.filter (fun x => x != m))) =
          some (s.filter (fun x => x != m)) := by
        rw [alookup_setAssoc, if_pos rfl]
      have hfil : (s.filter (fun x => x != m)).filter (fun x => x != m) =
          s.filter (fun x => x != m) :=
        List.filter_eq_self.mpr (fun a ha => (List.mem_filter.mp ha).2)
      have h3 : srem (setAssoc st k (s.filter (fun x => x != m))) k m =
          setAssoc (setAssoc st k (s.filter (fun x => x != m))) k
            (s.filter (fun x => x != m)) := by
        simp only [srem, h2, hfil, if_neg he]
      rw [h1, h3, setAssoc_setAssoc_same]

theorem srem_eq_self (st : SetStore) (k m : String)
    (h : ∀ s, alookup k st = some s → m ∉ s ∧ s ≠ []) : srem st k m = st := by
  cases hl : alookup k st with
  | none => simp only [srem, hl]
  | some s =>
    obtain ⟨hm, hne⟩ := h s hl
    have hfil : s.filter (fun x => x != m) = s :=
      List.filter_eq_self.mpr (fun a ha => by
        simp only [bne_iff_ne, ne_eq]
        exact fun heq => hm (heq ▸ ha))
    simp only [srem, hl, hfil, if_neg hne]
    exact setAssoc_eq_self st k s hl

/-- C7: replaying a `MEMBER_REMOVED` dispatch leaves the cache state
exactly as after one application, and the same holds for the whole-key ACL
invalidation; removing a member that is not in the cached set (on a
well-formed state, where Redis never stores an empty set) and invalidating
an absent key are both no-ops rather than errors. -/
theorem removeMember_invalidate_idempotent (st : RedisState) (p : EventPayload)
    (hs : HashStore) (aid : String) :
    (p.eventType = "MEMBER_REMOVED" →
      handleTeamEvent (handleTeamEvent st p) p = handleTeamEvent st p) ∧
    InvalidateACL (InvalidateACL hs aid) aid = InvalidateACL hs aid ∧
    (p.eventType = "MEMBER_REMOVED" →
      (∀ s, alookup ("team:" ++ p.teamID ++ ":members") st.sets = some s →
        p.targetUserID ∉ s ∧ s ≠ []) →
      handleTeamEvent st p = st) ∧
    (alookup ("asset:" ++ aid ++ ":acl") hs = none → InvalidateACL hs aid = hs) := by
  refine ⟨fun hev => ?_, ?_, fun hev hwf => ?_, fun habs => ?_⟩
  · have hne : p.eventType ≠ "MEMBER_ADDED" := by rw [hev]; decide
    simp [handleTeamEvent, hne, hev, srem_srem]
  · exact delAll_delAll hs _
  · have hne : p.eventType ≠ "MEMBER_ADDED" := by rw [hev]; decide
    simp [handleTeamEvent, hne, hev, srem_eq_self st.sets _ p.targetUserID hwf]
  · exact delAll_eq_self hs _ habs

/-- Payload for the C7 witness: removal of `u1` from team `t1`. -/
def pC7w : EventPayload where
  eventType := "MEMBER_REMOVED"
  teamID := "t1"
  assetType := ""
  assetID := ""
  ownerID := ""
  actionBy := "u9"
  targetUserID := "u1"
  timestamp := "2024-01-01T00:00:00Z"

/-- Payload for the C7 no-op witness: removal of `u1` from a team whose
member set is not cached. -/
def pC7absent : EventPayload where
  eventType := "MEMBER_REMOVED"
  teamID := "t9"
  assetType := ""
  assetID := ""
  ownerID := ""
  actionBy := "u9"
  targetUserID := "u1"
  timestamp := "2024-01-01T00:00:00Z"

/-- C7 witness: idempotence and no-op behaviour at a concrete state. -/
theorem removeMember_invalidate_idempotent_witness :
    handleTeamEvent (handleTeamEvent stC6 pC7w) pC7w = handleTeamEvent stC6 pC7w ∧
    (∀ s, alookup ("team:" ++ "t9" ++ ":members") stC6.sets = some s →
      "u1" ∉ s ∧ s ≠ []) ∧
    handleTeamEvent stC6 pC7absent = stC6 ∧
    alookup ("asset:" ++ "zz" ++ ":acl") stC6.hashes = none ∧
    InvalidateACL stC6.hashes "zz" = stC6.hashes :=
  ⟨(removeMember_invalidate_idempotent stC6 pC7w stC6.hashes "zz").1 (by decide),
   by decide,
   (removeMember_invalidate_idempotent stC6 pC7absent stC6.hashes "zz").2.2.1
     (by decide) (by decide),
   by decide,
   (removeMember_invalidate_idempotent stC6 pC7absent stC6.hashes "zz").2.2.2
     (by decide)⟩

/-- C8: writing an empty member list or an empty ACL map is a pure no-op
on the cache store — the state is unchanged, no key is created, and a get
of a previously absent key still reports an explicit miss rather than an
empty value. -/
theorem empty_set_and_acl_not_cached (sst : SetStore) (hst : HashStore)
    (tid aid : String) :
    SetTeamMembers sst tid [] = sst ∧
    SetACL hst aid [] = hst ∧
    (alookup ("team:" ++ tid ++ ":members") sst = none →
      GetTeamMembers (SetTeamMembers sst tid []) tid = .error .miss) ∧
    (alookup ("asset:" ++ aid ++ ":acl") hst = none →
      GetACL (SetACL hst aid []) aid = .error .miss) := by
  refine ⟨rfl, rfl, fun h => ?_, fun h => ?_⟩
  · simp [SetTeamMembers, GetTeamMembers, smembers, h]
  · simp [SetACL, GetACL, h]

/-- C8 witness: on an empty store, the empty-valued writes leave the store
empty and the gets still miss. -/
theorem empty_set_and_acl_not_cached_witness :
    SetTeamMembers [] "t1" [] = [] ∧
    SetACL [] "a1" [] = [] ∧
    GetTeamMembers (SetTeamMembers [] "t1" []) "t1" = .error .miss ∧
    GetACL (SetACL [] "a1" []) "a1" = .error .miss :=
  ⟨(empty_set_and_acl_not_cached [] [] "t1" "a1").1,
   (empty_set_and_acl_not_cached [] [] "t1" "a1").2.1,
   (empty_set_and_acl_not_cached [] [] "t1" "a1").2.2.1 (by decide),
   (empty_set_and_acl_not_cached [] [] "t1" "a1").2.2.2 (by decide)⟩

/-- Team-member cache for the C9 counterexample: a stored member id that
is not a UUID. -/
def setsC9 : SetStore := [("team:t1:members", ["not-a-uuid"])]

/-- ACL cache for the C9 counterexample: a stored user field that is not a
UUID. -/
def hashesC9 : HashStore := [("asset:a1:acl", [("corrupt-user-id", "read")])]

/-- C9 counterexample: on an entry holding a malformed identifier, both
reads return the data-corruption error, which is a different outcome from
the explicit cache-miss return (`redis.Nil`) — the corrupt entry is not
"treated as a cache Miss" as the claim states, it is surfaced as a distinct
error (though indeed with no partial data). -/
theorem corrupt_entry_error_not_miss_cex :
    uuidParseOk "not-a-uuid" = false ∧
    GetTeamMembers setsC9 "t1" = .error .corrupt ∧
    GetTeamMembers setsC9 "t1" ≠ .error .miss ∧
    GetACL hashesC9 "a1" = .error .corrupt ∧
    GetACL hashesC9 "a1" ≠ .error .miss := by
  decide

/-- C9 amended: a stored entry containing an identifier that fails UUID
parsing makes the whole read fail with the data-corruption error — no
partially parsed data and no wrong-shaped value is ever returned, and a
successful read contains only identifiers that parse — but the failure is
a parse error distinct from the explicit Miss return, not a Miss. -/
theorem corrupt_entry_yields_error_no_partial_data
    (sst : SetStore) (hst : HashStore) (tid aid bad : String) :
    (bad ∈ smembers sst ("team:" ++ tid ++ ":members") → uuidParseOk bad = false →
      GetTeamMembers sst tid = .error .corrupt) ∧
    (∀ l, GetTeamMembers sst tid = .ok l → ∀ x ∈ l, uuidParseOk x = true) ∧
    (∀ acc, (bad, acc) ∈ (alookup ("asset:" ++ aid ++ ":acl") hst).getD [] →
      uuidParseOk bad = false → GetACL hst aid = .error .corrupt) ∧
    (∀ m, GetACL hst aid = .ok m → ∀ q ∈ m, uuidParseOk q.1 = true) := by
  refine ⟨fun hmem hbad => ?_, fun l hok x hx => ?_, fun acc hmem hbad => ?_,
    fun m hok q hq => ?_⟩
  · have hne : smembers sst ("team:" ++ tid ++ ":members") ≠ [] :=
      List.ne_nil_of_mem hmem
    have hall : (smembers sst ("team:" ++ tid ++ ":members")).all uuidParseOk = false := by
      rw [Bool.eq_false_iff]
      intro hall
      rw [List.all_eq_true] at hall
      rw [hall bad hmem] at hbad
      simp at hbad
    simp [GetTeamMembers, hne, hall]
  · rw [GetTeamMembers] at hok
    split at hok
    · exact absurd hok (by simp)
    · split at hok
      · next hall =>
        cases hok
        exact List.all_eq_true.mp hall x hx
      · exact absurd hok (by simp)
  · have hne : (alookup ("asset:" ++ aid ++ ":acl") hst).getD [] ≠ [] :=
      List.ne_nil_of_mem hmem
    have hall : ((alookup ("asset:" ++ aid ++ ":acl") hst).getD []).all
        (fun q => uuidParseOk q.1) = false := by
      rw [Bool.eq_false_iff]
      intro hall
      rw [List.all_eq_true] at hall
      have := hall (bad, acc) hmem
      rw [this] at hbad
      simp at hbad
    simp [GetACL, hne, hall]
  · rw [GetACL] at hok
    split at hok
    · exact absurd hok (by simp)
    · split at hok
      · next hall =>
        cases hok
        exact List.all_eq_true.mp hall q hq
      · exact absurd hok (by simp)

/-- C9 witness for the amended statement: the concrete corrupt entries
yield the corruption error, and a well-formed entry parses in full. -/
theorem corrupt_entry_yields_error_no_partial_data_witness :
    "not-a-uuid" ∈ smembers setsC9 ("team:" ++ "t1" ++ ":members") ∧
    uuidParseOk "not-a-uuid" = false ∧
    GetTeamMembers setsC9 "t1" = .error .corrupt ∧
    GetACL hashesC9 "a1" = .error .corrupt :=
  ⟨by decide, by decide,
   (corrupt_entry_yields_error_no_partial_data setsC9 hashesC9 "t1" "a1"
     "not-a-uuid").1 (by decide) (by decide),
   (corrupt_entry_yields_error_no_partial_data setsC9 hashesC9 "t1" "a1"
     "corrupt-user-id").2.2.1 "read" (by decide) (by decide)⟩

/-- C10: `SetTeamMembers` on a key never removes members: every member
cached before the call is still cached after it, and (since a non-empty
argument list is written with `SADD`) every member of the argument list is
cached after it — the resulting set is a superset of both. -/
theorem setTeamMembers_superset (sst : SetStore) (tid : String)
    (memberIDs : List String) (x : String) :
    (x ∈ smembers sst ("team:" ++ tid ++ ":members") →
      x ∈ smembers (SetTeamMembers sst tid memberIDs) ("team:" ++ tid ++ ":members")) ∧
    (x ∈ memberIDs →
      x ∈ smembers (SetTeamMembers sst tid memberIDs) ("team:" ++ tid ++ ":members")) := by
  constructor
  · intro h
    unfold SetTeamMembers
    by_cases hm : memberIDs = []
    · rw [if_pos hm]
      exact h
    · rw [if_neg hm]
      exact mem_smembers_saddAll_of_mem memberIDs sst _ x h
  · intro h
    have hm : memberIDs ≠ [] := List.ne_nil_of_mem h
    unfold SetTeamMembers
    rw [if_neg hm]
    exact mem_smembers_saddAll_self memberIDs sst _ x h

/-- C10 witness: adding `u2` to a team whose cached set holds `u1` keeps
`u1` and adds `u2`. -/
theorem setTeamMembers_superset_witness :
    "u1" ∈ smembers [(("team:t1:members" : String), ["u1"])] ("team:" ++ "t1" ++ ":members") ∧
    "u1" ∈ smembers (SetTeamMembers [("team:t1:members", ["u1"])] "t1" ["u2"])
      ("team:" ++ "t1" ++ ":members") ∧
    "u2" ∈ smembers (SetTeamMembers [("team:t1:members", ["u1"])] "t1" ["u2"])
      ("team:" ++ "t1" ++ ":members") :=
  ⟨by decide,
   (setTeamMembers_superset [("team:t1:members", ["u1"])] "t1" ["u2"] "u1").1 (by decide),
   (setTeamMembers_superset [("team:t1:members", ["u1"])] "t1" ["u2"] "u2").2 (by decide)⟩

end Seta
